import Mathlib

/-!
The package logam, a logging facade over zap.

Shallow embedding of `logger.go` (package `logam`) together with the parts of
the Go standard library (`strings.ToLower`, `unicode.ToLower`) and of
`go.uber.org/zap` / `go.uber.org/zap/zapcore` that `logger.go` calls.

Conventions of the embedding
* a Go `string` is a Lean `String` (a sequence of runes);
* `interface{}` arguments are values of `Value`;
* what the process reads from its surroundings during a call (the clock, the
  call stack, the result of flushing standard error) is an explicit `Runtime`
  argument, with one set of `Readings` for every log operation of the call;
* what a call does to the process (bytes handed to standard error, process
  exit) is the returned `Outcome`.
-/

set_option autoImplicit false

namespace logam

/-! ## Go standard library: lower-casing -/

/-- The constant `unicode.MaxASCII`. -/
def MaxASCII : Nat := 0x7F

/-- LATIN CAPITAL LETTER I WITH DOT ABOVE, U+0130. -/
def capitalDottedI : Char := Char.ofNat 0x130

/-- KELVIN SIGN, U+212A. -/
def kelvinSign : Char := Char.ofNat 0x212A

/-- Stand-in for `unicode.To(unicode.LowerCase, r)` on runes above ASCII, which
Go answers from the table `unicode.CaseRanges`. That table holds the entries
`{0x0130, 0x0130, d{0, -199, 0}}` and `{0x212A, 0x212A, d{0, -8383, 0}}`:
U+0130 lower-cases to `i` and U+212A to `k`. These are the only two runes above
ASCII whose lower case lies inside ASCII. Every other rune above ASCII has a
lower case above ASCII (which one depends on the Unicode version of the
toolchain); it is left in place here, which no comparison with an ASCII key can
tell apart. -/
def lowerCaseAboveASCII (r : Char) : Char :=
  if r = capitalDottedI then 'i'
  else if r = kelvinSign then 'k'
  else r

/-- Go `unicode.ToLower`: ASCII is handled directly, the rest by the case
table. -/
def unicodeToLower (r : Char) : Char :=
  if r.toNat ≤ MaxASCII then
    if 'A'.toNat ≤ r.toNat ∧ r.toNat ≤ 'Z'.toNat then
      Char.ofNat (r.toNat + ('a'.toNat - 'A'.toNat))
    else r
  else lowerCaseAboveASCII r

/-- Go `strings.ToLower`: every rune of the string is mapped by
`unicode.ToLower`. -/
def stringsToLower (s : String) : String :=
  String.mk (s.data.map unicodeToLower)

/-! ## zapcore: levels -/

/-- The type `zapcore.Level` restricted to its seven named constants. -/
inductive Level
  | DebugLevel
  | InfoLevel
  | WarnLevel
  | ErrorLevel
  | DPanicLevel
  | PanicLevel
  | FatalLevel
  deriving DecidableEq, Repr

open Level

/-- Numeric value of a `zapcore.Level` constant (`DebugLevel = -1`, then
`iota`). -/
def Level.toInt : Level → Int
  | DebugLevel => -1
  | InfoLevel => 0
  | WarnLevel => 1
  | ErrorLevel => 2
  | DPanicLevel => 3
  | PanicLevel => 4
  | FatalLevel => 5

/-- Method `zapcore.Level.Enabled`: `lvl >= l`. -/
def Level.Enabled (l lvl : Level) : Bool :=
  decide (l.toInt ≤ lvl.toInt)

/-- Method `zapcore.Level.String` (named `LowerString` here, the name `String`
being taken by the type). -/
def Level.LowerString : Level → String
  | DebugLevel => "debug"
  | InfoLevel => "info"
  | WarnLevel => "warn"
  | ErrorLevel => "error"
  | DPanicLevel => "dpanic"
  | PanicLevel => "panic"
  | FatalLevel => "fatal"

/-- Method `zapcore.Level.CapitalString`. -/
def Level.CapitalString : Level → String
  | DebugLevel => "DEBUG"
  | InfoLevel => "INFO"
  | WarnLevel => "WARN"
  | ErrorLevel => "ERROR"
  | DPanicLevel => "DPANIC"
  | PanicLevel => "PANIC"
  | FatalLevel => "FATAL"

/-! ## zap: arguments, messages and what a call reads from the process -/

/-- A Go value passed as `interface{}`: a string, an integer or an `error`
(carrying the text its `Error()` returns). -/
inductive Value
  | str (s : String)
  | int (n : Int)
  | err (text : String)
  deriving DecidableEq, Repr

/-- The text of a log message. The renderings of `fmt.Sprint` and
`fmt.Sprintf` are kept as terms over their arguments. -/
inductive Message
  | text (s : String)
  | Sprint (args : List Value)
  | Sprintf (template : String) (args : List Value)
  deriving DecidableEq, Repr

/-- zap `getMessage` (sugar.go). -/
def getMessage (template : String) (fmtArgs : List Value) : Message :=
  if fmtArgs.length = 0 then Message.text template
  else if template ≠ "" then Message.Sprintf template fmtArgs
  else
    match fmtArgs with
    | [Value.str s] => Message.text s
    | _ => Message.Sprint fmtArgs

/-- The struct `zapcore.EntryCaller` (program counter and line folded into
`File`). -/
structure EntryCaller where
  Defined : Bool
  File : String
  Function : String
  deriving DecidableEq, Repr

/-- What one log operation reads from the running process: the clock, the
frame `runtime.Caller(skip)` reports, and the stack trace taken at that
point. -/
structure Readings where
  Now : Nat
  Caller : Nat → EntryCaller
  Stack : String

/-- What one call on the logger reads from the running process: the readings of
the call's own log operation, the error (if any) that flushing standard error
returns, and the readings of the log operations zap starts inside the call
(`Diag i` for the diagnostic number `i` of `sweetenFields`). -/
structure Runtime extends Readings where
  SyncErr : Option String
  Diag : Nat → Readings

/-- The pair zap records for a key that is not a string (`invalidPair`). -/
structure invalidPair where
  position : Nat
  key : Value
  value : Value
  deriving DecidableEq, Repr

/-- A `zap.Field` as the sugared logger produces it: `zap.Any(key, val)`,
`zap.Error(err)` (whose key is `error`), and `zap.Array(key, invalidPairs)`. -/
inductive Field
  | Any (key : String) (val : Value)
  | Error (err : String)
  | Array (key : String) (pairs : List invalidPair)
  deriving DecidableEq, Repr

/-! ## zapcore: encoder configuration and encoders -/

inductive LevelEncoder
  | LowercaseLevelEncoder
  | CapitalLevelEncoder
  deriving DecidableEq, Repr

inductive TimeEncoder
  | EpochTimeEncoder
  | ISO8601TimeEncoder
  | RFC3339TimeEncoder
  deriving DecidableEq, Repr

inductive DurationEncoder
  | SecondsDurationEncoder
  | StringDurationEncoder
  deriving DecidableEq, Repr

inductive CallerEncoder
  | ShortCallerEncoder
  deriving DecidableEq, Repr

/-- The struct `zapcore.EncoderConfig` (the fields the two presets set). -/
structure EncoderConfig where
  MessageKey : String
  LevelKey : String
  TimeKey : String
  NameKey : String
  CallerKey : String
  FunctionKey : String
  StacktraceKey : String
  LineEnding : String
  EncodeLevel : LevelEncoder
  EncodeTime : TimeEncoder
  EncodeDuration : DurationEncoder
  EncodeCaller : CallerEncoder
  deriving DecidableEq, Repr

/-- The constant `zapcore.OmitKey`. -/
def OmitKey : String := ""

/-- The constant `zapcore.DefaultLineEnding`. -/
def DefaultLineEnding : String := "\n"

/-- zap `NewProductionEncoderConfig` (config.go). -/
def NewProductionEncoderConfig : EncoderConfig where
  TimeKey := "ts"
  LevelKey := "level"
  NameKey := "logger"
  CallerKey := "caller"
  FunctionKey := OmitKey
  MessageKey := "msg"
  StacktraceKey := "stacktrace"
  LineEnding := DefaultLineEnding
  EncodeLevel := LevelEncoder.LowercaseLevelEncoder
  EncodeTime := TimeEncoder.EpochTimeEncoder
  EncodeDuration := DurationEncoder.SecondsDurationEncoder
  EncodeCaller := CallerEncoder.ShortCallerEncoder

/-- zap `NewDevelopmentEncoderConfig` (config.go). -/
def NewDevelopmentEncoderConfig : EncoderConfig where
  TimeKey := "T"
  LevelKey := "L"
  NameKey := "N"
  CallerKey := "C"
  FunctionKey := OmitKey
  MessageKey := "M"
  StacktraceKey := "S"
  LineEnding := DefaultLineEnding
  EncodeLevel := LevelEncoder.CapitalLevelEncoder
  EncodeTime := TimeEncoder.ISO8601TimeEncoder
  EncodeDuration := DurationEncoder.StringDurationEncoder
  EncodeCaller := CallerEncoder.ShortCallerEncoder

/-- A `zapcore.Encoder` as `logger.go` builds it: the console or the JSON
encoder over an encoder configuration. -/
inductive Encoder
  | Console (cfg : EncoderConfig)
  | JSON (cfg : EncoderConfig)
  deriving DecidableEq, Repr

def NewConsoleEncoder (cfg : EncoderConfig) : Encoder := Encoder.Console cfg

def NewJSONEncoder (cfg : EncoderConfig) : Encoder := Encoder.JSON cfg

def Encoder.cfg : Encoder → EncoderConfig
  | Encoder.Console c => c
  | Encoder.JSON c => c

/-- The struct `zapcore.Entry`. -/
structure Entry where
  Level : Level
  Time : Nat
  LoggerName : String
  Message : Message
  Caller : EntryCaller
  Stack : String
  deriving DecidableEq, Repr

/-- An encoded value of a record. Time and call-site renderings are kept as
terms over the encoder that produces them. -/
inductive Encoded
  | level (s : String)
  | time (enc : TimeEncoder) (t : Nat)
  | caller (enc : CallerEncoder) (file : String)
  | str (s : String)
  | message (m : Message)
  deriving DecidableEq, Repr

/-- One encoded record as handed to the sink. A JSON record is its members in
order (key and value); a console record is its columns in order. Both are
followed by the fields of the call and, when present, the stack trace (for JSON
under the given key). -/
inductive Output
  | jsonLine (members : List (String × Encoded)) (context : List Field)
      (stack : Option (String × String)) (lineEnding : String)
  | consoleLine (columns : List Encoded) (context : List Field)
      (stack : Option String) (lineEnding : String)
  deriving DecidableEq, Repr

/-- The level encoders `zapcore.LowercaseLevelEncoder` and
`zapcore.CapitalLevelEncoder`. -/
def LevelEncoder.encode : LevelEncoder → Level → Encoded
  | LevelEncoder.LowercaseLevelEncoder, l => Encoded.level l.LowerString
  | LevelEncoder.CapitalLevelEncoder, l => Encoded.level l.CapitalString

/-- Method `EncodeEntry` of the JSON encoder (json_encoder.go). -/
def jsonEncodeEntry (c : EncoderConfig) (ent : Entry) (fields : List Field) : Output :=
  let lvl := if c.LevelKey ≠ "" then [(c.LevelKey, c.EncodeLevel.encode ent.Level)] else []
  let tm := if c.TimeKey ≠ "" then [(c.TimeKey, Encoded.time c.EncodeTime ent.Time)] else []
  let nm := if ent.LoggerName ≠ "" ∧ c.NameKey ≠ "" then
      [(c.NameKey, Encoded.str ent.LoggerName)] else []
  let cl := if ent.Caller.Defined then
      (if c.CallerKey ≠ "" then
        [(c.CallerKey, Encoded.caller c.EncodeCaller ent.Caller.File)] else [])
      ++ (if c.FunctionKey ≠ "" then
        [(c.FunctionKey, Encoded.str ent.Caller.Function)] else [])
    else []
  let msg := if c.MessageKey ≠ "" then [(c.MessageKey, Encoded.message ent.Message)] else []
  let stack := if ent.Stack ≠ "" ∧ c.StacktraceKey ≠ "" then
      some (c.StacktraceKey, ent.Stack) else none
  Output.jsonLine (lvl ++ tm ++ nm ++ cl ++ msg) fields stack c.LineEnding

/-- Method `EncodeEntry` of the console encoder (console_encoder.go). -/
def consoleEncodeEntry (c : EncoderConfig) (ent : Entry) (fields : List Field) : Output :=
  let tm := if c.TimeKey ≠ "" then [Encoded.time c.EncodeTime ent.Time] else []
  let lvl := if c.LevelKey ≠ "" then [c.EncodeLevel.encode ent.Level] else []
  let nm := if ent.LoggerName ≠ "" ∧ c.NameKey ≠ "" then [Encoded.str ent.LoggerName] else []
  let cl := if ent.Caller.Defined then
      (if c.CallerKey ≠ "" then [Encoded.caller c.EncodeCaller ent.Caller.File] else [])
      ++ (if c.FunctionKey ≠ "" then [Encoded.str ent.Caller.Function] else [])
    else []
  let msg := if c.MessageKey ≠ "" then [Encoded.message ent.Message] else []
  let stack := if ent.Stack ≠ "" ∧ c.StacktraceKey ≠ "" then some ent.Stack else none
  Output.consoleLine (tm ++ lvl ++ nm ++ cl ++ msg) fields stack c.LineEnding

/-- Method `EncodeEntry` of a `zapcore.Encoder`. -/
def Encoder.EncodeEntry : Encoder → Entry → List Field → Output
  | Encoder.Console c, ent, fields => consoleEncodeEntry c ent fields
  | Encoder.JSON c, ent, fields => jsonEncodeEntry c ent fields

/-- The stack trace a record carries, if it has that field. -/
def Output.stacktrace : Output → Option String
  | Output.jsonLine _ _ stack _ => stack.map Prod.snd
  | Output.consoleLine _ _ stack _ => stack

/-- The value a JSON record holds under a key; a console record has no keys. -/
def Output.member (o : Output) (key : String) : Option Encoded :=
  match o with
  | Output.jsonLine members _ _ _ => members.lookup key
  | Output.consoleLine _ _ _ _ => none

/-- Whether the record is a structured (JSON) one. -/
def Output.isStructured : Output → Bool
  | Output.jsonLine _ _ _ _ => true
  | Output.consoleLine _ _ _ _ => false

/-! ## zapcore: the core -/

/-- The files a sink can wrap; `logger.go` uses `os.Stderr` only. -/
inductive File
  | Stderr
  deriving DecidableEq, Repr

/-- A `zapcore.WriteSyncer` over a file. -/
structure WriteSyncer where
  file : File
  deriving DecidableEq, Repr

def AddSync (f : File) : WriteSyncer := ⟨f⟩

/-- A `zap.AtomicLevel`, holding a level. -/
structure AtomicLevel where
  l : Level
  deriving DecidableEq, Repr

def NewAtomicLevelAt (l : Level) : AtomicLevel := ⟨l⟩

/-- Method `zap.AtomicLevel.Enabled`. -/
def AtomicLevel.Enabled (lvl : AtomicLevel) (l : Level) : Bool := lvl.l.Enabled l

/-- The struct `zapcore.ioCore`. -/
structure ioCore where
  enc : Encoder
  out : WriteSyncer
  level : AtomicLevel
  deriving DecidableEq, Repr

def NewCore (enc : Encoder) (ws : WriteSyncer) (enab : AtomicLevel) : ioCore :=
  { enc := enc, out := ws, level := enab }

/-- Method `ioCore.Enabled` (through the embedded `LevelEnabler`). -/
def ioCore.Enabled (c : ioCore) (l : Level) : Bool := c.level.Enabled l

/-- Method `ioCore.Write`: the entry is encoded and handed to the sink. -/
def ioCore.Write (c : ioCore) (ent : Entry) (fields : List Field) : Output :=
  c.enc.EncodeEntry ent fields

/-! ## zap: the logger and its sugared wrapper -/

/-- What a checked entry does after it is written (`zapcore.CheckWriteAction`). -/
inductive CheckWriteAction
  | WriteThenNoop
  | WriteThenPanic
  | WriteThenFatal
  deriving DecidableEq, Repr

/-- The struct `zap.Logger`. The field `addStack` is a level enabler given by its
numeric minimum, since `zap.New` starts it at `FatalLevel + 1`. -/
structure Logger where
  core : ioCore
  development : Bool
  addCaller : Bool
  name : String
  callerSkip : Nat
  addStack : Int
  deriving DecidableEq, Repr

/-- The options of `zap.New` that `logger.go` passes. -/
inductive LoggerOption
  | AddCaller
  | AddCallerSkip (skip : Nat)
  | AddStacktrace (lvl : Level)
  deriving DecidableEq, Repr

/-- Applying one option to a logger (options.go). -/
def LoggerOption.apply : LoggerOption → Logger → Logger
  | LoggerOption.AddCaller, log => { log with addCaller := true }
  | LoggerOption.AddCallerSkip skip, log => { log with callerSkip := log.callerSkip + skip }
  | LoggerOption.AddStacktrace lvl, log => { log with addStack := lvl.toInt }

/-- zap `New` (logger.go of zap): the defaults, then the options in order. -/
def New (core : ioCore) (options : List LoggerOption) : Logger :=
  options.foldl (fun log opt => opt.apply log)
    { core := core, development := false, addCaller := false, name := "",
      callerSkip := 0, addStack := FatalLevel.toInt + 1 }

/-- The struct `zapcore.CheckedEntry`: the entry, its terminal action and the
cores that will write it. -/
structure CheckedEntry where
  Entry : Entry
  should : CheckWriteAction
  cores : List ioCore
  deriving DecidableEq, Repr

/-- The constant `callerSkipOffset` of `Logger.check`. -/
def callerSkipOffset : Nat := 2

/-- Method `zap.Logger.check`: `none` stands for the nil checked entry. -/
def Logger.check (log : Logger) (lvl : Level) (msg : Message) (rt : Readings) :
    Option CheckedEntry :=
  if lvl.toInt < DPanicLevel.toInt ∧ log.core.Enabled lvl = false then none
  else
    let ent : Entry :=
      { Level := lvl, Time := rt.Now, LoggerName := log.name, Message := msg,
        Caller := { Defined := false, File := "", Function := "" }, Stack := "" }
    let willWrite := log.core.Enabled ent.Level
    let should : CheckWriteAction :=
      match ent.Level with
      | PanicLevel => CheckWriteAction.WriteThenPanic
      | FatalLevel => CheckWriteAction.WriteThenFatal
      | DPanicLevel =>
          if log.development then CheckWriteAction.WriteThenPanic
          else CheckWriteAction.WriteThenNoop
      | _ => CheckWriteAction.WriteThenNoop
    if willWrite = false then
      if should = CheckWriteAction.WriteThenNoop then none
      else some { Entry := ent, should := should, cores := [] }
    else
      let ent1 : Entry :=
        if log.addCaller then
          { ent with Caller := rt.Caller (log.callerSkip + callerSkipOffset) }
        else ent
      let ent2 : Entry :=
        if log.addStack ≤ ent1.Level.toInt then { ent1 with Stack := rt.Stack } else ent1
      some { Entry := ent2, should := should, cores := [log.core] }

/-- How a call ends: it returns, it panics, or it terminates the process. -/
inductive Ending
  | returned
  | panicked
  | exited
  deriving DecidableEq, Repr

/-- The effect of a call: the records handed to the sink, in order, and how the
call ends. -/
structure Outcome where
  written : List Output
  ending : Ending
  deriving DecidableEq, Repr

/-- The effect of a call that writes nothing and returns. -/
def Outcome.nothing : Outcome := { written := [], ending := Ending.returned }

/-- Method `zapcore.CheckedEntry.Write`: every core writes the entry, then the
terminal action is taken. -/
def CheckedEntry.Write (ce : CheckedEntry) (fields : List Field) : Outcome :=
  { written := ce.cores.map (fun c => c.Write ce.Entry fields),
    ending :=
      match ce.should with
      | CheckWriteAction.WriteThenNoop => Ending.returned
      | CheckWriteAction.WriteThenPanic => Ending.panicked
      | CheckWriteAction.WriteThenFatal => Ending.exited }

/-- The struct `zap.SugaredLogger`. -/
structure SugaredLogger where
  base : Logger
  deriving DecidableEq, Repr

/-- Method `zap.Logger.Sugar`. -/
def Logger.Sugar (log : Logger) : SugaredLogger :=
  { base := { log with callerSkip := log.callerSkip + 2 } }

/-- Method `zap.Logger.Error`: a checked entry at error level, written with the
given fields. -/
def Logger.Error (log : Logger) (msg : String) (fields : List Field) (rt : Readings) :
    Outcome :=
  match log.check ErrorLevel (Message.text msg) rt with
  | some ce => ce.Write fields
  | none => Outcome.nothing

/-- The constant `_oddNumberErrMsg` of sugar.go. -/
def oddNumberErrMsg : String := "Ignored key without a value."

/-- The constant `_nonStringKeyErrMsg` of sugar.go. -/
def nonStringKeyErrMsg : String := "Ignored key-value pairs with non-string keys."

/-- The constant `_multipleErrMsg` of sugar.go. -/
def multipleErrMsg : String := "Multiple errors without a key."

/-- A diagnostic `sweetenFields` logs through `s.base.Error`: its message and
its fields. -/
structure Diagnostic where
  msg : String
  fields : List Field
  deriving DecidableEq, Repr

/-- What `sweetenFields` produces: the fields it returns, the pairs with a key
that is not a string, and the diagnostics it logs on the way, in order. -/
structure Sweetened where
  fields : List Field
  invalid : List invalidPair
  diags : List Diagnostic
  deriving DecidableEq, Repr

/-- The loop of `sweetenFields` from index `i` on. An error value stands alone:
the first becomes the field `zap.Error(err)`, a later one is reported. A last
element that is not an error is a dangling key: it is reported and the loop
ends. Otherwise two elements are consumed as key and value; a key that is not a
string puts the pair among the invalid ones. -/
def sweetenLoop : Nat → Bool → List Value → Sweetened
  | _, _, [] => { fields := [], invalid := [], diags := [] }
  | i, seenError, Value.err err :: rest =>
      let r := sweetenLoop (i + 1) true rest
      if seenError then
        { r with diags := { msg := multipleErrMsg, fields := [Field.Error err] } :: r.diags }
      else { r with fields := Field.Error err :: r.fields }
  | _, _, [last] =>
      { fields := [], invalid := [],
        diags := [{ msg := oddNumberErrMsg, fields := [Field.Any "ignored" last] }] }
  | i, seenError, key :: val :: rest =>
      let r := sweetenLoop (i + 2) seenError rest
      match key with
      | Value.str keyStr => { r with fields := Field.Any keyStr val :: r.fields }
      | _ => { r with invalid := { position := i, key := key, value := val } :: r.invalid }

/-- Method `zap.SugaredLogger.sweetenFields` (sugar.go, as in the zap releases
that report through `s.base.Error`): the fields for the key/value list of a `w`
method. The diagnostics it logs while running are returned in `diags`, to be
logged by `SugaredLogger.log` at the point where Go evaluates the call. A
`Value` is never a ready-made `zap.Field`, so that branch of the loop is not
taken. -/
def sweetenFields (args : List Value) : Sweetened :=
  if args.length = 0 then { fields := [], invalid := [], diags := [] }
  else
    let r := sweetenLoop 0 false args
    if r.invalid.length > 0 then
      { r with
        diags := r.diags ++
          [{ msg := nonStringKeyErrMsg, fields := [Field.Array "invalid" r.invalid] }] }
    else r

/-- The records the diagnostics of `sweetenFields` put on the sink: each is a
call of `s.base.Error` with its own readings, numbered from `i` on. -/
def SugaredLogger.logDiagnostics (s : SugaredLogger) (rt : Runtime) :
    Nat → List Diagnostic → List Output
  | _, [] => []
  | i, d :: ds =>
      (s.base.Error d.msg d.fields (rt.Diag i)).written ++ s.logDiagnostics rt (i + 1) ds

/-- Method `zap.SugaredLogger.log` (sugar.go): `context` is the key/value list
of the `w` methods. In `ce.Write(s.sweetenFields(context)...)` Go runs
`sweetenFields` before `Write`, so its diagnostics reach the sink before the
record of the call. -/
def SugaredLogger.log (s : SugaredLogger) (lvl : Level) (template : String)
    (fmtArgs : List Value) (context : List Value) (rt : Runtime) : Outcome :=
  if lvl.toInt < DPanicLevel.toInt ∧ s.base.core.Enabled lvl = false then Outcome.nothing
  else
    let msg := getMessage template fmtArgs
    match s.base.check lvl msg rt.toReadings with
    | some ce =>
        let sw := sweetenFields context
        let diagnostics := s.logDiagnostics rt 0 sw.diags
        let own := ce.Write sw.fields
        { written := diagnostics ++ own.written, ending := own.ending }
    | none => Outcome.nothing

def SugaredLogger.Debug (s : SugaredLogger) (args : List Value) (rt : Runtime) : Outcome :=
  s.log DebugLevel "" args [] rt

def SugaredLogger.Info (s : SugaredLogger) (args : List Value) (rt : Runtime) : Outcome :=
  s.log InfoLevel "" args [] rt

def SugaredLogger.Warn (s : SugaredLogger) (args : List Value) (rt : Runtime) : Outcome :=
  s.log WarnLevel "" args [] rt

def SugaredLogger.Error (s : SugaredLogger) (args : List Value) (rt : Runtime) : Outcome :=
  s.log ErrorLevel "" args [] rt

def SugaredLogger.Fatal (s : SugaredLogger) (args : List Value) (rt : Runtime) : Outcome :=
  s.log FatalLevel "" args [] rt

def SugaredLogger.Debugf (s : SugaredLogger) (template : String) (args : List Value)
    (rt : Runtime) : Outcome :=
  s.log DebugLevel template args [] rt

def SugaredLogger.Infof (s : SugaredLogger) (template : String) (args : List Value)
    (rt : Runtime) : Outcome :=
  s.log InfoLevel template args [] rt

def SugaredLogger.Warnf (s : SugaredLogger) (template : String) (args : List Value)
    (rt : Runtime) : Outcome :=
  s.log WarnLevel template args [] rt

def SugaredLogger.Errorf (s : SugaredLogger) (template : String) (args : List Value)
    (rt : Runtime) : Outcome :=
  s.log ErrorLevel template args [] rt

def SugaredLogger.Fatalf (s : SugaredLogger) (template : String) (args : List Value)
    (rt : Runtime) : Outcome :=
  s.log FatalLevel template args [] rt

def SugaredLogger.Debugw (s : SugaredLogger) (msg : String) (keysAndValues : List Value)
    (rt : Runtime) : Outcome :=
  s.log DebugLevel msg [] keysAndValues rt

def SugaredLogger.Infow (s : SugaredLogger) (msg : String) (keysAndValues : List Value)
    (rt : Runtime) : Outcome :=
  s.log InfoLevel msg [] keysAndValues rt

def SugaredLogger.Warnw (s : SugaredLogger) (msg : String) (keysAndValues : List Value)
    (rt : Runtime) : Outcome :=
  s.log WarnLevel msg [] keysAndValues rt

def SugaredLogger.Errorw (s : SugaredLogger) (msg : String) (keysAndValues : List Value)
    (rt : Runtime) : Outcome :=
  s.log ErrorLevel msg [] keysAndValues rt

/-- Method `zap.SugaredLogger.Sync`: the error of flushing the sink, if any. -/
def SugaredLogger.Sync (_s : SugaredLogger) (rt : Runtime) : Option String :=
  rt.SyncErr

/-! ## logger.go: configuration and level lookup -/

/-- The struct `Config`. -/
structure Config where
  LogLevel : String
  LogFormat : String
  Environment : String
  deriving DecidableEq, Repr

def EnvDevelopment : String := "development"
def EnvProduction : String := "production"
def EnvStaging : String := "staging"
def EnvWorkstation : String := "workstation"

/-- The struct `dxLogger`; `none` is the nil `logger` pointer that `newLogger`
leaves. -/
structure dxLogger where
  cfg : Config
  logger : Option SugaredLogger
  deriving DecidableEq, Repr

def newLogger (cfg : Config) : dxLogger :=
  { cfg := cfg, logger := none }

/-- The package variable `levelMap`. -/
def levelMap : List (String × Level) :=
  [("debug", DebugLevel),
   ("info", InfoLevel),
   ("warn", WarnLevel),
   ("error", ErrorLevel),
   ("dpanic", DPanicLevel),
   ("panic", PanicLevel),
   ("fatal", FatalLevel)]

/-- Method `dxLogger.getLogLevel`. -/
def getLogLevel (s : dxLogger) : Level :=
  match levelMap.lookup (stringsToLower s.cfg.LogLevel) with
  | some level => level
  | none => DebugLevel

/-- Method `dxLogger.initLogger`: the receiver with its `logger` field set, and
the effect of the flush-and-warn step at the end. -/
def initLogger (s : dxLogger) (rt : Runtime) : dxLogger × Outcome :=
  let logLevel := getLogLevel s
  let logWriter := AddSync File.Stderr
  let encoderCfg0 : EncoderConfig :=
    if s.cfg.Environment = EnvWorkstation ∨ s.cfg.Environment = EnvDevelopment then
      NewDevelopmentEncoderConfig
    else NewProductionEncoderConfig
  let encoderCfg : EncoderConfig :=
    { encoderCfg0 with
      LevelKey := "LEVEL", MessageKey := "MESSAGE", CallerKey := "CALLER",
      TimeKey := "TIME", NameKey := "NAME",
      EncodeTime := TimeEncoder.RFC3339TimeEncoder }
  let encoder : Encoder :=
    if s.cfg.LogFormat = "console" then NewConsoleEncoder encoderCfg
    else NewJSONEncoder encoderCfg
  let core := NewCore encoder logWriter (NewAtomicLevelAt logLevel)
  let logger := New core
    [LoggerOption.AddCaller, LoggerOption.AddCallerSkip 1,
     LoggerOption.AddStacktrace ErrorLevel]
  let sugar := logger.Sugar
  let s1 : dxLogger := { s with logger := some sugar }
  match sugar.Sync rt with
  | some err => (s1, sugar.Warn [Value.err err] rt)
  | none => (s1, Outcome.nothing)

/-- The function `NewLogger`: the logger it returns, and what initialization did
to the process on the way. -/
def NewLogger (cfg : Config) (rt : Runtime) : dxLogger × Outcome :=
  let logger := newLogger cfg
  initLogger logger rt

/-- A method call through a nil `*zap.SugaredLogger` panics. -/
def nilDereference : Outcome := { written := [], ending := Ending.panicked }

def dxLogger.Errorf (s : dxLogger) (format : String) (args : List Value) (rt : Runtime) :
    Outcome :=
  match s.logger with
  | some l => l.Errorf format args rt
  | none => nilDereference

def dxLogger.Error (s : dxLogger) (args : List Value) (rt : Runtime) :
    Outcome :=
  match s.logger with
  | some l => l.Error args rt
  | none => nilDereference

def dxLogger.Fatalf (s : dxLogger) (format : String) (args : List Value) (rt : Runtime) :
    Outcome :=
  match s.logger with
  | some l => l.Fatalf format args rt
  | none => nilDereference

def dxLogger.Fatal (s : dxLogger) (args : List Value) (rt : Runtime) :
    Outcome :=
  match s.logger with
  | some l => l.Fatal args rt
  | none => nilDereference

def dxLogger.Infof (s : dxLogger) (format : String) (args : List Value) (rt : Runtime) :
    Outcome :=
  match s.logger with
  | some l => l.Infof format args rt
  | none => nilDereference

def dxLogger.Info (s : dxLogger) (args : List Value) (rt : Runtime) :
    Outcome :=
  match s.logger with
  | some l => l.Info args rt
  | none => nilDereference

def dxLogger.Warnf (s : dxLogger) (format : String) (args : List Value) (rt : Runtime) :
    Outcome :=
  match s.logger with
  | some l => l.Warnf format args rt
  | none => nilDereference

def dxLogger.Warn (s : dxLogger) (args : List Value) (rt : Runtime) :
    Outcome :=
  match s.logger with
  | some l => l.Warn args rt
  | none => nilDereference

def dxLogger.Debugf (s : dxLogger) (format : String) (args : List Value) (rt : Runtime) :
    Outcome :=
  match s.logger with
  | some l => l.Debugf format args rt
  | none => nilDereference

def dxLogger.Debug (s : dxLogger) (args : List Value) (rt : Runtime) :
    Outcome :=
  match s.logger with
  | some l => l.Debug args rt
  | none => nilDereference

def dxLogger.Printf (s : dxLogger) (format : String) (args : List Value) (rt : Runtime) :
    Outcome :=
  match s.logger with
  | some l => l.Infof format args rt
  | none => nilDereference

def dxLogger.Print (s : dxLogger) (args : List Value) (rt : Runtime) :
    Outcome :=
  match s.logger with
  | some l => l.Info args rt
  | none => nilDereference

def dxLogger.Infow (s : dxLogger) (message : String) (keyAndValues : List Value) (rt : Runtime) :
    Outcome :=
  match s.logger with
  | some l => l.Infow message keyAndValues rt
  | none => nilDereference

def dxLogger.Errorw (s : dxLogger) (message : String) (keyAndValues : List Value) (rt : Runtime) :
    Outcome :=
  match s.logger with
  | some l => l.Errorw message keyAndValues rt
  | none => nilDereference

def dxLogger.Debugw (s : dxLogger) (message : String) (keyAndValues : List Value) (rt : Runtime) :
    Outcome :=
  match s.logger with
  | some l => l.Debugw message keyAndValues rt
  | none => nilDereference

def dxLogger.Warnw (s : dxLogger) (message : String) (keyAndValues : List Value) (rt : Runtime) :
    Outcome :=
  match s.logger with
  | some l => l.Warnw message keyAndValues rt
  | none => nilDereference

def dxLogger.Tracef (s : dxLogger) (format : String) (args : List Value) (rt : Runtime) :
    Outcome :=
  match s.logger with
  | some l => l.Infof format args rt
  | none => nilDereference

/-! ## Vocabulary of the specification -/

/-- The seven level names the specification lists. -/
def levelNames : List String :=
  ["debug", "info", "warn", "error", "dpanic", "panic", "fatal"]

/-- Letter-for-letter comparison of a string with a (lower-case) name, every
letter being allowed in lower or in upper case. -/
def caseMixChars : List Char → List Char → Bool
  | [], [] => true
  | c :: cs, n :: ns => (c == n || c == n.toUpper) && caseMixChars cs ns
  | _, _ => false

/-- A string is the given name in some mix of upper and lower case. -/
def CaseInsensitiveMatch (s name : String) : Prop :=
  caseMixChars s.data name.data = true

instance (s name : String) : Decidable (CaseInsensitiveMatch s name) := by
  unfold CaseInsensitiveMatch
  infer_instance

/-- Letter-for-letter comparison as `caseMixChars`, where in addition U+0130
(capital I with dot above) is accepted for the letter `i`. -/
def dottedCaseMixChars : List Char → List Char → Bool
  | [], [] => true
  | c :: cs, n :: ns =>
      (c == n || c == n.toUpper || (n == 'i' && c == capitalDottedI))
        && dottedCaseMixChars cs ns
  | _, _ => false

/-- A string is the given name in some mix of upper and lower case, U+0130
counting as a capital of `i`. -/
def DottedCaseInsensitiveMatch (s name : String) : Prop :=
  dottedCaseMixChars s.data name.data = true

instance (s name : String) : Decidable (DottedCaseInsensitiveMatch s name) := by
  unfold DottedCaseInsensitiveMatch
  infer_instance

/-- The calling styles of the facade: plain arguments, a format with
arguments, a message with keys and values. -/
inductive Style
  | plain
  | f
  | w
  deriving DecidableEq, Repr

/-- The facade methods of the Debug, Info, Warn, Error and Fatal families, as
the interface `Logger` declares them (there is no `Fatalw`). -/
inductive LeveledMethod
  | Debug | Debugf | Debugw
  | Info | Infof | Infow
  | Warn | Warnf | Warnw
  | Error | Errorf | Errorw
  | Fatal | Fatalf
  deriving DecidableEq, Repr

/-- The severity a leveled method is named for. -/
def LeveledMethod.severity : LeveledMethod → Level
  | LeveledMethod.Debug | LeveledMethod.Debugf | LeveledMethod.Debugw => DebugLevel
  | LeveledMethod.Info | LeveledMethod.Infof | LeveledMethod.Infow => InfoLevel
  | LeveledMethod.Warn | LeveledMethod.Warnf | LeveledMethod.Warnw => WarnLevel
  | LeveledMethod.Error | LeveledMethod.Errorf | LeveledMethod.Errorw => ErrorLevel
  | LeveledMethod.Fatal | LeveledMethod.Fatalf => FatalLevel

/-- The calling style of a leveled method, by the suffix of its name. -/
def LeveledMethod.style : LeveledMethod → Style
  | LeveledMethod.Debug | LeveledMethod.Info | LeveledMethod.Warn | LeveledMethod.Error
  | LeveledMethod.Fatal => Style.plain
  | LeveledMethod.Debugf | LeveledMethod.Infof | LeveledMethod.Warnf | LeveledMethod.Errorf
  | LeveledMethod.Fatalf => Style.f
  | LeveledMethod.Debugw | LeveledMethod.Infow | LeveledMethod.Warnw
  | LeveledMethod.Errorw => Style.w

/-- Calling the facade method of the given name on a `dxLogger`; `text` is the
format or message of the `f` and `w` styles and is not passed in the plain
style. -/
def LeveledMethod.call (m : LeveledMethod) (s : dxLogger) (text : String)
    (args : List Value) (rt : Runtime) : Outcome :=
  match m with
  | LeveledMethod.Debug => s.Debug args rt
  | LeveledMethod.Debugf => s.Debugf text args rt
  | LeveledMethod.Debugw => s.Debugw text args rt
  | LeveledMethod.Info => s.Info args rt
  | LeveledMethod.Infof => s.Infof text args rt
  | LeveledMethod.Infow => s.Infow text args rt
  | LeveledMethod.Warn => s.Warn args rt
  | LeveledMethod.Warnf => s.Warnf text args rt
  | LeveledMethod.Warnw => s.Warnw text args rt
  | LeveledMethod.Error => s.Error args rt
  | LeveledMethod.Errorf => s.Errorf text args rt
  | LeveledMethod.Errorw => s.Errorw text args rt
  | LeveledMethod.Fatal => s.Fatal args rt
  | LeveledMethod.Fatalf => s.Fatalf text args rt

/-- The backend call a leveled method is specified to make: the backend's
`log` at the named severity, with the caller's arguments in the positions of
the method's style. -/
def LeveledMethod.forwarded (m : LeveledMethod) (l : SugaredLogger) (text : String)
    (args : List Value) (rt : Runtime) : Outcome :=
  match m.style with
  | Style.plain => l.log m.severity "" args [] rt
  | Style.f => l.log m.severity text args [] rt
  | Style.w => l.log m.severity text [] args rt

/-- The entry the backend forms for a call it writes: level, clock reading and
message of the call, the call site the logger's caller skip (plus the offset of
`Logger.check`) points at, and the stack trace when the level reaches the
logger's stack-trace level. -/
def writtenEntry (l : SugaredLogger) (lvl : Level) (msg : Message) (rt : Readings) : Entry :=
  { Level := lvl, Time := rt.Now, LoggerName := l.base.name, Message := msg,
    Caller :=
      if l.base.addCaller then rt.Caller (l.base.callerSkip + callerSkipOffset)
      else { Defined := false, File := "", Function := "" },
    Stack := if l.base.addStack ≤ lvl.toInt then rt.Stack else "" }

/-- The message of the record a leveled method is specified to write. -/
def LeveledMethod.message (m : LeveledMethod) (text : String) (args : List Value) :
    Message :=
  match m.style with
  | Style.plain => getMessage "" args
  | Style.f => getMessage text args
  | Style.w => getMessage text []

/-- The key/value list of a call: the arguments of a `w` method, nothing for the
other styles. -/
def LeveledMethod.keysAndValues (m : LeveledMethod) (args : List Value) : List Value :=
  match m.style with
  | Style.w => args
  | _ => []

/-- A well-formed key/value list: string keys alternating with their values. -/
def keyValueArgs : List (String × Value) → List Value
  | [] => []
  | p :: rest => Value.str p.1 :: p.2 :: keyValueArgs rest

/-- The encoded level a record shows, if it shows one. -/
def Output.level : Output → Option Encoded
  | Output.jsonLine members _ _ _ =>
      (members.map Prod.snd).find? (fun e => match e with | Encoded.level _ => true | _ => false)
  | Output.consoleLine columns _ _ _ =>
      columns.find? (fun e => match e with | Encoded.level _ => true | _ => false)

/-- A runtime used in examples: a fixed clock reading, a defined call site, a
two-line stack trace, a flush that succeeds, and later readings with a deeper
stack for the diagnostics. -/
def sampleRuntime : Runtime where
  Now := 1700000000
  Caller := fun _ => { Defined := true, File := "app/main.go:42", Function := "main.main" }
  Stack := "main.main\n\tapp/main.go:42"
  SyncErr := none
  Diag := fun i =>
    { Now := 1700000001 + i,
      Caller := fun _ =>
        { Defined := true, File := "zap/sugar.go:1", Function := "zap.sweetenFields" },
      Stack := "zap.sweetenFields\n\tzap/sugar.go:1\nmain.main\n\tapp/main.go:42" }

/-- The runtime of `sampleRuntime` with a flush of standard error that fails. -/
def failingSyncRuntime : Runtime :=
  { sampleRuntime with SyncErr := some "sync /dev/stderr: invalid argument" }

/-! ## Theorems -/

theorem unicodeToLower_of_mix (n c : Char) (hn : 97 ≤ n.toNat ∧ n.toNat ≤ 122)
    (h : (c == n || c == n.toUpper) = true) : unicodeToLower c = n := by
  have hn2 := Char.ofNat_toNat n
  obtain ⟨h1, h2⟩ := hn
  generalize n.toNat = k at *
  subst hn2
  simp only [Bool.or_eq_true, beq_iff_eq] at h
  interval_cases k <;> rcases h with rfl | rfl <;> decide

theorem mix_of_unicodeToLower (n c : Char) (hn : 97 ≤ n.toNat ∧ n.toNat ≤ 122)
    (hk : n ≠ 'k') (h : unicodeToLower c = n) :
    (c == n || c == n.toUpper || (n == 'i' && c == capitalDottedI)) = true := by
  unfold unicodeToLower at h
  split at h
  · split at h
    next hA hU =>
      have hc := Char.ofNat_toNat c
      obtain ⟨u1, u2⟩ := hU
      generalize c.toNat = k at *
      subst hc
      subst h
      have u1' : 65 ≤ k := u1
      have u2' : k ≤ 90 := u2
      interval_cases k <;> decide
    next => simp [h]
  · next hA =>
    unfold lowerCaseAboveASCII at h
    split at h
    next hc => subst hc; subst h; decide
    next hc =>
      split at h
      · exact absurd h.symm hk
      · subst h
        simp [MaxASCII] at hA
        omega

theorem map_lower_of_caseMix (name : List Char)
    (hname : ∀ n ∈ name, 97 ≤ n.toNat ∧ n.toNat ≤ 122) :
    ∀ s : List Char, caseMixChars s name = true → s.map unicodeToLower = name := by
  induction name with
  | nil =>
    intro s h
    cases s with
    | nil => rfl
    | cons c cs => simp [caseMixChars] at h
  | cons n ns ih =>
    intro s h
    cases s with
    | nil => simp [caseMixChars] at h
    | cons c cs =>
      simp only [caseMixChars, Bool.and_eq_true] at h
      have h1 := unicodeToLower_of_mix n c (hname n (List.mem_cons_self n ns)) h.1
      have h2 := ih (fun m hm => hname m (List.mem_cons_of_mem n hm)) cs h.2
      simp [h1, h2]

theorem dottedCaseMix_of_map_lower (name : List Char)
    (hname : ∀ n ∈ name, (97 ≤ n.toNat ∧ n.toNat ≤ 122) ∧ n ≠ 'k') :
    ∀ s : List Char, s.map unicodeToLower = name → dottedCaseMixChars s name = true := by
  induction name with
  | nil =>
    intro s h
    cases s with
    | nil => rfl
    | cons c cs => simp at h
  | cons n ns ih =>
    intro s h
    cases s with
    | nil => simp at h
    | cons c cs =>
      simp only [List.map_cons, List.cons.injEq] at h
      have hn := hname n (List.mem_cons_self n ns)
      have h1 := mix_of_unicodeToLower n c hn.1 hn.2 h.1
      have h2 := ih (fun m hm => hname m (List.mem_cons_of_mem n hm)) cs h.2
      simp only [dottedCaseMixChars, Bool.and_eq_true]
      exact ⟨h1, h2⟩

theorem levelNames_letters : ∀ name ∈ levelNames, ∀ n ∈ name.data,
    (97 ≤ n.toNat ∧ n.toNat ≤ 122) ∧ n ≠ 'k' := by
  decide

theorem mem_of_lookup (key : String) (lvl : Level) :
    ∀ l : List (String × Level), l.lookup key = some lvl → (key, lvl) ∈ l := by
  intro l
  induction l with
  | nil => intro h; simp [List.lookup] at h
  | cons p t ih =>
    intro h
    obtain ⟨a, b⟩ := p
    by_cases hk : key = a
    · subst hk
      simp [List.lookup] at h
      simp [h]
    · have hb : (key == a) = false := by simpa using hk
      simp only [List.lookup, hb] at h
      exact List.mem_cons_of_mem _ (ih h)

theorem lookup_of_mem (name : String) (lvl : Level)
    (h : (name, lvl) ∈ levelMap) : levelMap.lookup name = some lvl := by
  simp only [levelMap, List.mem_cons, List.mem_singleton, Prod.mk.injEq, List.mem_nil_iff,
    or_false] at h
  rcases h with ⟨rfl, rfl⟩ | ⟨rfl, rfl⟩ | ⟨rfl, rfl⟩ | ⟨rfl, rfl⟩ | ⟨rfl, rfl⟩ | ⟨rfl, rfl⟩ |
    ⟨rfl, rfl⟩ <;> decide

theorem name_of_mem_levelMap (name : String) (lvl : Level)
    (h : (name, lvl) ∈ levelMap) : name ∈ levelNames := by
  simp only [levelMap, List.mem_cons, List.mem_singleton, Prod.mk.injEq, List.mem_nil_iff,
    or_false] at h
  rcases h with ⟨rfl, _⟩ | ⟨rfl, _⟩ | ⟨rfl, _⟩ | ⟨rfl, _⟩ | ⟨rfl, _⟩ | ⟨rfl, _⟩ |
    ⟨rfl, _⟩ <;> decide

theorem getLogLevel_of_lower (s : dxLogger) (name : String) (lvl : Level)
    (h : (name, lvl) ∈ levelMap) (hl : stringsToLower s.cfg.LogLevel = name) :
    getLogLevel s = lvl := by
  unfold getLogLevel
  rw [hl, lookup_of_mem name lvl h]

/-- What `NewLogger` builds, field by field: the backend handle it installs and
the effect of the flush-and-warn step. -/
theorem NewLogger_built (cfg : Config) (rt : Runtime) :
    ∃ l : SugaredLogger,
      (NewLogger cfg rt).1.logger = some l ∧
      (NewLogger cfg rt).1.cfg = cfg ∧
      l.base.core.level = NewAtomicLevelAt (getLogLevel (newLogger cfg)) ∧
      l.base.core.enc =
        (if cfg.LogFormat = "console" then
          NewConsoleEncoder
            { (if cfg.Environment = EnvWorkstation ∨ cfg.Environment = EnvDevelopment then
                NewDevelopmentEncoderConfig else NewProductionEncoderConfig) with
              LevelKey := "LEVEL", MessageKey := "MESSAGE", CallerKey := "CALLER",
              TimeKey := "TIME", NameKey := "NAME",
              EncodeTime := TimeEncoder.RFC3339TimeEncoder }
        else
          NewJSONEncoder
            { (if cfg.Environment = EnvWorkstation ∨ cfg.Environment = EnvDevelopment then
                NewDevelopmentEncoderConfig else NewProductionEncoderConfig) with
              LevelKey := "LEVEL", MessageKey := "MESSAGE", CallerKey := "CALLER",
              TimeKey := "TIME", NameKey := "NAME",
              EncodeTime := TimeEncoder.RFC3339TimeEncoder }) ∧
      l.base.addStack = ErrorLevel.toInt ∧
      l.base.addCaller = true ∧
      l.base.development = false ∧
      l.base.name = "" ∧
      (NewLogger cfg rt).2 =
        (match rt.SyncErr with
          | some err => l.Warn [Value.err err] rt
          | none => Outcome.nothing) := by
  simp only [NewLogger, initLogger, SugaredLogger.Sync]
  cases rt.SyncErr <;>
    simp [New, LoggerOption.apply, Logger.Sugar, NewCore, newLogger]

/-- C1. Whenever `LogLevel` is one of the seven level names written in any mix
of upper and lower case, `getLogLevel` returns the level of that name, and the
core of the logger `NewLogger` builds is constructed with exactly that level as
its filter threshold, for every `LogFormat` and `Environment`. -/
theorem getLogLevel_recognized (cfg : Config) (name : String) (lvl : Level)
    (hname : (name, lvl) ∈
      [("debug", DebugLevel), ("info", InfoLevel), ("warn", WarnLevel),
       ("error", ErrorLevel), ("dpanic", DPanicLevel), ("panic", PanicLevel),
       ("fatal", FatalLevel)])
    (hmix : CaseInsensitiveMatch cfg.LogLevel name) :
    getLogLevel (newLogger cfg) = lvl ∧
    ∀ rt : Runtime, ∃ l : SugaredLogger,
      (NewLogger cfg rt).1.logger = some l ∧ l.base.core.level = NewAtomicLevelAt lvl := by
  have hl : stringsToLower cfg.LogLevel = name := by
    unfold stringsToLower
    have := map_lower_of_caseMix name.data
      (fun n hn => (levelNames_letters name (name_of_mem_levelMap name lvl hname) n hn).1)
      cfg.LogLevel.data hmix
    rw [this]
  have hg : getLogLevel (newLogger cfg) = lvl := getLogLevel_of_lower _ name lvl hname hl
  refine ⟨hg, fun rt => ?_⟩
  obtain ⟨l, h1, _, h2, _⟩ := NewLogger_built cfg rt
  exact ⟨l, h1, by rw [h2, hg]⟩

/-- Witness of C1 at `LogLevel = "WaRn"` with a console format in the
workstation environment. -/
theorem getLogLevel_recognized_witness :
    CaseInsensitiveMatch "WaRn" "warn" ∧
    getLogLevel (newLogger ⟨"WaRn", "console", "workstation"⟩) = WarnLevel ∧
    ∀ rt : Runtime, ∃ l : SugaredLogger,
      (NewLogger ⟨"WaRn", "console", "workstation"⟩ rt).1.logger = some l ∧
      l.base.core.level = NewAtomicLevelAt WarnLevel :=
  ⟨by decide,
   getLogLevel_recognized ⟨"WaRn", "console", "workstation"⟩ "warn" WarnLevel
     (by decide) (by decide)⟩

/-- C2 as stated fails: `"\u0130nfo"` (capital I with dot above, then `nfo`) is
not a mix of upper and lower case of any of the seven names, yet Go lower-cases
U+0130 to `i`, so the lookup finds `info` and the level is not debug. -/
theorem getLogLevel_unrecognized_counterexample :
    (∀ name ∈ levelNames, ¬ CaseInsensitiveMatch "\u0130nfo" name) ∧
    getLogLevel (newLogger ⟨"\u0130nfo", "json", "production"⟩) = InfoLevel ∧
    getLogLevel (newLogger ⟨"\u0130nfo", "json", "production"⟩) ≠ DebugLevel := by
  decide

/-- C2, amended. Whenever `LogLevel` is not one of the seven level names in a
mix of upper and lower case, U+0130 counting as a capital of `i` as Go's
lower-casing has it, `getLogLevel` returns the debug level. The lookup is a
total function into the levels: it has no error result. -/
theorem getLogLevel_unrecognized (cfg : Config)
    (h : ∀ name ∈ levelNames, ¬ DottedCaseInsensitiveMatch cfg.LogLevel name) :
    getLogLevel (newLogger cfg) = DebugLevel := by
  unfold getLogLevel
  cases hlk : levelMap.lookup (stringsToLower (newLogger cfg).cfg.LogLevel) with
  | none => rfl
  | some lvl =>
    exfalso
    have hm := mem_of_lookup _ _ _ hlk
    have hn := name_of_mem_levelMap _ _ hm
    exact h _ hn (dottedCaseMix_of_map_lower _ (levelNames_letters _ hn) cfg.LogLevel.data rfl)

/-- Witness of the amended C2 at the empty string, a name padded with a blank,
and the spellings `warning` and `trace`. -/
theorem getLogLevel_unrecognized_witness :
    ((∀ name ∈ levelNames, ¬ DottedCaseInsensitiveMatch "" name) ∧
      getLogLevel (newLogger ⟨"", "json", "production"⟩) = DebugLevel) ∧
    ((∀ name ∈ levelNames, ¬ DottedCaseInsensitiveMatch " info" name) ∧
      getLogLevel (newLogger ⟨" info", "json", "production"⟩) = DebugLevel) ∧
    ((∀ name ∈ levelNames, ¬ DottedCaseInsensitiveMatch "warning" name) ∧
      getLogLevel (newLogger ⟨"warning", "json", "production"⟩) = DebugLevel) ∧
    ((∀ name ∈ levelNames, ¬ DottedCaseInsensitiveMatch "trace" name) ∧
      getLogLevel (newLogger ⟨"trace", "json", "production"⟩) = DebugLevel) :=
  ⟨⟨by decide, getLogLevel_unrecognized ⟨"", "json", "production"⟩ (by decide)⟩,
   ⟨by decide, getLogLevel_unrecognized ⟨" info", "json", "production"⟩ (by decide)⟩,
   ⟨by decide, getLogLevel_unrecognized ⟨"warning", "json", "production"⟩ (by decide)⟩,
   ⟨by decide, getLogLevel_unrecognized ⟨"trace", "json", "production"⟩ (by decide)⟩⟩

theorem sweetenFields_nil : sweetenFields [] = { fields := [], invalid := [], diags := [] } := by
  rfl

theorem sweetenLoop_keyValueArgs (kvs : List (String × Value)) :
    ∀ (i : Nat) (seenError : Bool), sweetenLoop i seenError (keyValueArgs kvs) =
      { fields := kvs.map (fun p => Field.Any p.1 p.2), invalid := [], diags := [] } := by
  induction kvs with
  | nil => intro i seenError; simp [keyValueArgs, sweetenLoop]
  | cons p rest ih =>
    intro i seenError
    simp [keyValueArgs, sweetenLoop, ih]

theorem sweetenFields_keyValueArgs (kvs : List (String × Value)) :
    sweetenFields (keyValueArgs kvs) =
      { fields := kvs.map (fun p => Field.Any p.1 p.2), invalid := [], diags := [] } := by
  cases kvs with
  | nil => rfl
  | cons p rest =>
    have h := sweetenLoop_keyValueArgs (p :: rest) 0 false
    simp only [keyValueArgs] at h
    simp [sweetenFields, keyValueArgs, h]

theorem check_write_written (l : SugaredLogger) (lvl : Level) (msg : Message)
    (fields : List Field) (rd : Readings) :
    (match l.base.check lvl msg rd with
      | some ce => ce.Write fields
      | none => Outcome.nothing).written =
      if l.base.core.level.l.toInt ≤ lvl.toInt then
        [l.base.core.Write (writtenEntry l lvl msg rd) fields]
      else [] := by
  by_cases hen : l.base.core.level.l.toInt ≤ lvl.toInt
  · have hE : l.base.core.Enabled lvl = true := by
      simp [ioCore.Enabled, AtomicLevel.Enabled, Level.Enabled, hen]
    simp only [Logger.check, hE, hen, if_true]
    by_cases hc : l.base.addCaller = true <;>
      by_cases hs : l.base.addStack ≤ lvl.toInt <;>
      simp [hc, hs, CheckedEntry.Write, writtenEntry]
  · have hE : l.base.core.Enabled lvl = false := by
      simp [ioCore.Enabled, AtomicLevel.Enabled, Level.Enabled, hen]
    simp only [Logger.check, hE, hen, if_false]
    cases lvl <;> cases hd : l.base.development <;>
      simp [Level.toInt, CheckedEntry.Write, Outcome.nothing]

theorem Error_written (l : SugaredLogger) (msg : String) (fields : List Field)
    (rd : Readings) :
    (l.base.Error msg fields rd).written =
      if l.base.core.level.l.toInt ≤ ErrorLevel.toInt then
        [l.base.core.Write (writtenEntry l ErrorLevel (Message.text msg) rd) fields]
      else [] := by
  unfold Logger.Error
  exact check_write_written l ErrorLevel (Message.text msg) fields rd

theorem logDiagnostics_off (l : SugaredLogger) (rt : Runtime) (ds : List Diagnostic)
    (hoff : ¬ l.base.core.level.l.toInt ≤ ErrorLevel.toInt) :
    ∀ (i : Nat), l.logDiagnostics rt i ds = [] := by
  induction ds with
  | nil => intro i; rfl
  | cons d rest ih =>
    intro i
    simp [SugaredLogger.logDiagnostics, Error_written, hoff, ih]

theorem log_written_context (l : SugaredLogger) (lvl : Level) (template : String)
    (fmtArgs context : List Value) (rt : Runtime) :
    (l.log lvl template fmtArgs context rt).written =
      if l.base.core.level.l.toInt ≤ lvl.toInt then
        l.logDiagnostics rt 0 (sweetenFields context).diags ++
          [l.base.core.Write
            (writtenEntry l lvl (getMessage template fmtArgs) rt.toReadings)
            (sweetenFields context).fields]
      else [] := by
  by_cases hen : l.base.core.level.l.toInt ≤ lvl.toInt
  · have hE : l.base.core.Enabled lvl = true := by
      simp [ioCore.Enabled, AtomicLevel.Enabled, Level.Enabled, hen]
    simp only [SugaredLogger.log, Logger.check, hE, hen, if_true]
    by_cases hc : l.base.addCaller = true <;>
      by_cases hs : l.base.addStack ≤ lvl.toInt <;>
      simp [hc, hs, CheckedEntry.Write, writtenEntry]
  · have hE : l.base.core.Enabled lvl = false := by
      simp [ioCore.Enabled, AtomicLevel.Enabled, Level.Enabled, hen]
    simp only [SugaredLogger.log, Logger.check, hE, hen, if_false]
    have hoff : Level.toInt lvl < DPanicLevel.toInt ∨
        ¬ l.base.core.level.l.toInt ≤ ErrorLevel.toInt := by
      cases lvl <;> simp [Level.toInt] at hen ⊢ <;> omega
    rcases hoff with hlow | hoff
    · simp [hlow, Outcome.nothing]
    · cases lvl <;> cases hd : l.base.development <;>
        simp [Level.toInt, CheckedEntry.Write, Outcome.nothing, logDiagnostics_off _ _ _ hoff]

theorem log_written (l : SugaredLogger) (lvl : Level) (template : String)
    (fmtArgs : List Value) (rt : Runtime) :
    (l.log lvl template fmtArgs [] rt).written =
      if l.base.core.level.l.toInt ≤ lvl.toInt then
        [l.base.core.Write (writtenEntry l lvl (getMessage template fmtArgs) rt.toReadings) []]
      else [] := by
  rw [log_written_context, sweetenFields_nil]
  simp [SugaredLogger.logDiagnostics]

theorem log_ending (l : SugaredLogger) (lvl : Level) (template : String)
    (fmtArgs context : List Value) (rt : Runtime) (hdev : l.base.development = false) :
    (l.log lvl template fmtArgs context rt).ending =
      match lvl with
      | PanicLevel => Ending.panicked
      | FatalLevel => Ending.exited
      | _ => Ending.returned := by
  by_cases hen : l.base.core.level.l.toInt ≤ lvl.toInt
  · have hE : l.base.core.Enabled lvl = true := by
      simp [ioCore.Enabled, AtomicLevel.Enabled, Level.Enabled, hen]
    simp only [SugaredLogger.log, Logger.check, hE, hen, if_true]
    cases lvl <;> simp [hdev, CheckedEntry.Write]
  · have hE : l.base.core.Enabled lvl = false := by
      simp [ioCore.Enabled, AtomicLevel.Enabled, Level.Enabled, hen]
    simp only [SugaredLogger.log, Logger.check, hE, hen, if_false]
    cases lvl <;> simp [hdev, Level.toInt, CheckedEntry.Write, Outcome.nothing]

theorem logDiagnostics_mem (l : SugaredLogger) (rt : Runtime) (ds : List Diagnostic) :
    ∀ (i : Nat), ∀ o ∈ l.logDiagnostics rt i ds,
      ∃ d ∈ ds, ∃ j : Nat,
        o = l.base.core.Write
          (writtenEntry l ErrorLevel (Message.text d.msg) (rt.Diag j)) d.fields := by
  induction ds with
  | nil => intro i o ho; simp [SugaredLogger.logDiagnostics] at ho
  | cons d rest ih =>
    intro i o ho
    simp only [SugaredLogger.logDiagnostics, List.mem_append] at ho
    rcases ho with ho | ho
    · rw [Error_written] at ho
      split at ho
      · rw [List.mem_singleton] at ho
        exact ⟨d, List.mem_cons_self d rest, i, ho⟩
      · simp at ho
    · obtain ⟨d1, hd1, j, hj⟩ := ih (i + 1) o ho
      exact ⟨d1, List.mem_cons_of_mem d hd1, j, hj⟩

theorem sweetenLoop_diag_msg (n : Nat) :
    ∀ (args : List Value), args.length ≤ n → ∀ (i : Nat) (seenError : Bool),
      ∀ d ∈ (sweetenLoop i seenError args).diags,
        d.msg = oddNumberErrMsg ∨ d.msg = multipleErrMsg := by
  induction n with
  | zero =>
    intro args hlen i seenError d hd
    have : args = [] := List.length_eq_zero.mp (Nat.le_zero.mp hlen)
    subst this
    simp [sweetenLoop] at hd
  | succ n ih =>
    intro args hlen i seenError d hd
    match args, hlen with
    | [], _ => simp [sweetenLoop] at hd
    | Value.err e :: rest, hlen =>
      have hr : rest.length ≤ n := by simpa using hlen
      simp only [sweetenLoop] at hd
      split at hd
      · simp only [List.mem_cons] at hd
        rcases hd with rfl | hd
        · exact Or.inr rfl
        · exact ih rest hr _ _ d hd
      · exact ih rest hr _ _ d hd
    | [Value.str s], _ =>
      simp [sweetenLoop] at hd
      subst hd
      exact Or.inl rfl
    | [Value.int k], _ =>
      simp [sweetenLoop] at hd
      subst hd
      exact Or.inl rfl
    | Value.str s :: v :: rest, hlen =>
      have hr : rest.length ≤ n := by simp at hlen; omega
      simp only [sweetenLoop] at hd
      exact ih rest hr _ _ d hd
    | Value.int k :: v :: rest, hlen =>
      have hr : rest.length ≤ n := by simp at hlen; omega
      simp only [sweetenLoop] at hd
      exact ih rest hr _ _ d hd

theorem sweetenFields_diag_msg (args : List Value) :
    ∀ d ∈ (sweetenFields args).diags,
      d.msg = oddNumberErrMsg ∨ d.msg = nonStringKeyErrMsg ∨ d.msg = multipleErrMsg := by
  intro d hd
  unfold sweetenFields at hd
  split at hd
  · simp at hd
  · simp only at hd
    split at hd
    · simp only [List.mem_append, List.mem_singleton] at hd
      rcases hd with hd | rfl
      · rcases sweetenLoop_diag_msg _ args (Nat.le_refl _) 0 false d hd with h | h
        · exact Or.inl h
        · exact Or.inr (Or.inr h)
      · exact Or.inr (Or.inl rfl)
    · rcases sweetenLoop_diag_msg _ args (Nat.le_refl _) 0 false d hd with h | h
      · exact Or.inl h
      · exact Or.inr (Or.inr h)

/-- C3. For every configuration and every facade method of the Debug, Info,
Warn, Error and Fatal families, a call on the logger `NewLogger` returns is the
backend's `log` at the severity the method is named for with the same
arguments. The record of the call, an entry of that severity with the call's
message and fields, is handed to the sink exactly when that severity is at or
above the threshold resolved from `LogLevel`, and is then the last record
written; below the threshold nothing is written at all. Before it the sink
receives only the error-level diagnostics zap issues for a malformed key/value
list, of which there are none for a well-formed list or for a method of the
plain or `f` style. The levels are ordered debug, info, warn, error, dpanic,
panic, fatal. -/
theorem leveled_call_written_iff (cfg : Config) (rt0 : Runtime) (m : LeveledMethod)
    (text : String) (args : List Value) (rt : Runtime) :
    ∃ l : SugaredLogger,
      (NewLogger cfg rt0).1.logger = some l ∧
      m.call (NewLogger cfg rt0).1 text args rt = m.forwarded l text args rt ∧
      (writtenEntry l m.severity (m.message text args) rt.toReadings).Level = m.severity ∧
      (l.base.core.Write (writtenEntry l m.severity (m.message text args) rt.toReadings)
          (sweetenFields (m.keysAndValues args)).fields ∈
            (m.call (NewLogger cfg rt0).1 text args rt).written ↔
        (getLogLevel (newLogger cfg)).toInt ≤ m.severity.toInt) ∧
      ((m.call (NewLogger cfg rt0).1 text args rt).written ≠ [] ↔
        (getLogLevel (newLogger cfg)).toInt ≤ m.severity.toInt) ∧
      (m.call (NewLogger cfg rt0).1 text args rt).written =
        (if (getLogLevel (newLogger cfg)).toInt ≤ m.severity.toInt then
          l.logDiagnostics rt 0 (sweetenFields (m.keysAndValues args)).diags ++
            [l.base.core.Write
              (writtenEntry l m.severity (m.message text args) rt.toReadings)
              (sweetenFields (m.keysAndValues args)).fields]
        else []) ∧
      (∀ o ∈ l.logDiagnostics rt 0 (sweetenFields (m.keysAndValues args)).diags,
        ∃ (ent : Entry) (fields : List Field),
          ent.Level = ErrorLevel ∧
          (ent.Message = Message.text oddNumberErrMsg ∨
            ent.Message = Message.text nonStringKeyErrMsg ∨
            ent.Message = Message.text multipleErrMsg) ∧
          o = l.base.core.Write ent fields) ∧
      (∀ kvs : List (String × Value), m.keysAndValues args = keyValueArgs kvs →
        (m.call (NewLogger cfg rt0).1 text args rt).written =
          (if (getLogLevel (newLogger cfg)).toInt ≤ m.severity.toInt then
            [l.base.core.Write
              (writtenEntry l m.severity (m.message text args) rt.toReadings)
              (kvs.map (fun p => Field.Any p.1 p.2))]
          else [])) ∧
      (DebugLevel.toInt < InfoLevel.toInt ∧ InfoLevel.toInt < WarnLevel.toInt ∧
        WarnLevel.toInt < ErrorLevel.toInt ∧ ErrorLevel.toInt < DPanicLevel.toInt ∧
        DPanicLevel.toInt < PanicLevel.toInt ∧ PanicLevel.toInt < FatalLevel.toInt) := by
  obtain ⟨l, h1, _, h2, _⟩ := NewLogger_built cfg rt0
  have hthr : l.base.core.level.l = getLogLevel (newLogger cfg) := by rw [h2]; rfl
  have hfw : m.call (NewLogger cfg rt0).1 text args rt = m.forwarded l text args rt := by
    cases m <;> simp [LeveledMethod.call, LeveledMethod.forwarded, LeveledMethod.style,
      LeveledMethod.severity, h1, dxLogger.Debug, dxLogger.Debugf, dxLogger.Debugw,
      dxLogger.Info, dxLogger.Infof, dxLogger.Infow, dxLogger.Warn, dxLogger.Warnf,
      dxLogger.Warnw, dxLogger.Error, dxLogger.Errorf, dxLogger.Errorw, dxLogger.Fatal,
      dxLogger.Fatalf, SugaredLogger.Debug, SugaredLogger.Debugf, SugaredLogger.Debugw,
      SugaredLogger.Info, SugaredLogger.Infof, SugaredLogger.Infow, SugaredLogger.Warn,
      SugaredLogger.Warnf, SugaredLogger.Warnw, SugaredLogger.Error, SugaredLogger.Errorf,
      SugaredLogger.Errorw, SugaredLogger.Fatal, SugaredLogger.Fatalf]
  have hw : (m.forwarded l text args rt).written =
      (if (getLogLevel (newLogger cfg)).toInt ≤ m.severity.toInt then
        l.logDiagnostics rt 0 (sweetenFields (m.keysAndValues args)).diags ++
          [l.base.core.Write
            (writtenEntry l m.severity (m.message text args) rt.toReadings)
            (sweetenFields (m.keysAndValues args)).fields]
      else []) := by
    unfold LeveledMethod.forwarded LeveledMethod.message LeveledMethod.keysAndValues
    cases hst : m.style <;> simp [log_written_context, hthr]
  have hdiag : ∀ o ∈ l.logDiagnostics rt 0 (sweetenFields (m.keysAndValues args)).diags,
      ∃ (ent : Entry) (fields : List Field),
        ent.Level = ErrorLevel ∧
        (ent.Message = Message.text oddNumberErrMsg ∨
          ent.Message = Message.text nonStringKeyErrMsg ∨
          ent.Message = Message.text multipleErrMsg) ∧
        o = l.base.core.Write ent fields := by
    intro o ho
    obtain ⟨d, hd, j, hj⟩ := logDiagnostics_mem l rt _ 0 o ho
    have hm := sweetenFields_diag_msg _ d hd
    refine ⟨_, _, rfl, ?_, hj⟩
    rcases hm with h | h | h
    · exact Or.inl (congrArg Message.text h)
    · exact Or.inr (Or.inl (congrArg Message.text h))
    · exact Or.inr (Or.inr (congrArg Message.text h))
  refine ⟨l, h1, hfw, rfl, ?_, ?_, ?_, hdiag, ?_, by decide⟩
  · rw [hfw, hw]
    by_cases hen : (getLogLevel (newLogger cfg)).toInt ≤ m.severity.toInt <;> simp [hen]
  · rw [hfw, hw]
    by_cases hen : (getLogLevel (newLogger cfg)).toInt ≤ m.severity.toInt <;> simp [hen]
  · rw [hfw, hw]
  · intro kvs hkv
    rw [hfw, hw, hkv, sweetenFields_keyValueArgs]
    simp [SugaredLogger.logDiagnostics]

/-- C4 as stated fails: with `LogLevel` warn, format json and environment
production, `Warn("low disk")` writes one structured record, but its LEVEL
member is the string `warn`, not `WARN`: the production preset encodes levels in
lower case and `initLogger` does not replace the level encoder. -/
theorem warn_json_production_counterexample :
    ∃ o : Output,
      ((NewLogger ⟨"warn", "json", "production"⟩ sampleRuntime).1.Warn
        [Value.str "low disk"] sampleRuntime).written = [o] ∧
      o.member "LEVEL" = some (Encoded.level "warn") ∧
      o.member "LEVEL" ≠ some (Encoded.level "WARN") := by
  refine ⟨_, rfl, ?_, ?_⟩ <;> decide

/-- C4, amended. With `LogLevel` warn, format json and environment production,
`Debug("x")` on the logger from `NewLogger` writes nothing, and
`Warn("low disk")` writes exactly one structured record whose LEVEL member is
the string `warn` and whose MESSAGE member is `low disk`. -/
theorem warn_json_production (rt0 rt : Runtime) :
    ((NewLogger ⟨"warn", "json", "production"⟩ rt0).1.Debug [Value.str "x"] rt).written = [] ∧
    ∃ o : Output,
      ((NewLogger ⟨"warn", "json", "production"⟩ rt0).1.Warn
        [Value.str "low disk"] rt).written = [o] ∧
      o.isStructured = true ∧
      o.member "LEVEL" = some (Encoded.level "warn") ∧
      o.member "MESSAGE" = some (Encoded.message (Message.text "low disk")) := by
  obtain ⟨l, h1, _, h2, h3, _, h5, _, h7, _⟩ := NewLogger_built ⟨"warn", "json", "production"⟩ rt0
  have hg : getLogLevel (newLogger ⟨"warn", "json", "production"⟩) = WarnLevel := by decide
  have hthr : l.base.core.level.l = WarnLevel := by rw [h2, hg]; rfl
  have henc : l.base.core.enc = NewJSONEncoder
      { NewProductionEncoderConfig with
        LevelKey := "LEVEL", MessageKey := "MESSAGE", CallerKey := "CALLER",
        TimeKey := "TIME", NameKey := "NAME",
        EncodeTime := TimeEncoder.RFC3339TimeEncoder } := by
    rw [h3]; decide
  constructor
  · simp [dxLogger.Debug, h1, SugaredLogger.Debug, log_written, hthr, Level.toInt]
  · refine ⟨l.base.core.Write
      (writtenEntry l WarnLevel (getMessage "" [Value.str "low disk"]) rt.toReadings) [],
      ?_, ?_, ?_, ?_⟩
    · simp [dxLogger.Warn, h1, SugaredLogger.Warn, log_written, hthr]
    · simp [ioCore.Write, henc, NewJSONEncoder, Encoder.EncodeEntry, jsonEncodeEntry,
        Output.isStructured]
    · simp [ioCore.Write, henc, NewJSONEncoder, Encoder.EncodeEntry, jsonEncodeEntry,
        Output.member, NewProductionEncoderConfig, writtenEntry, List.lookup,
        LevelEncoder.encode, Level.LowerString]
    · cases hd : (rt.Caller (l.base.callerSkip + callerSkipOffset)).Defined <;>
        simp [ioCore.Write, henc, NewJSONEncoder, Encoder.EncodeEntry, jsonEncodeEntry,
          Output.member, NewProductionEncoderConfig, writtenEntry, List.lookup,
          LevelEncoder.encode, Level.LowerString, getMessage, h5, h7, hd, OmitKey]

/-- C5. For every configuration the encoder `initLogger` installs is the
console encoder exactly when `LogFormat` is the string `console`; for every
other value (the empty string and `Console` among them) it is the JSON encoder.
The choice is made on `LogFormat` alone: two configurations with the same
`LogFormat` get the same kind of encoder whatever their other fields are. -/
theorem encoder_console_iff (cfg : Config) (rt : Runtime) :
    ∃ l : SugaredLogger,
      (NewLogger cfg rt).1.logger = some l ∧
      ((∃ c : EncoderConfig, l.base.core.enc = NewConsoleEncoder c) ↔
        cfg.LogFormat = "console") ∧
      ((∃ c : EncoderConfig, l.base.core.enc = NewJSONEncoder c) ↔
        cfg.LogFormat ≠ "console") ∧
      (∀ (level environment : String) (rt1 : Runtime) (format : String),
        format ∈ ["", "Console", "CONSOLE", "json", " console"] →
        ∃ l1 c1, (NewLogger ⟨level, format, environment⟩ rt1).1.logger = some l1 ∧
          l1.base.core.enc = NewJSONEncoder c1) ∧
      (∀ (level environment : String) (rt1 : Runtime),
        ∃ l1 : SugaredLogger,
          (NewLogger ⟨level, cfg.LogFormat, environment⟩ rt1).1.logger = some l1 ∧
          ((∃ c : EncoderConfig, l1.base.core.enc = NewConsoleEncoder c) ↔
            ∃ c : EncoderConfig, l.base.core.enc = NewConsoleEncoder c)) := by
  obtain ⟨l, h1, _, _, h3, _⟩ := NewLogger_built cfg rt
  have key : ∀ (c2 : Config) (l2 : SugaredLogger),
      l2.base.core.enc =
        (if c2.LogFormat = "console" then
          NewConsoleEncoder
            { (if c2.Environment = EnvWorkstation ∨ c2.Environment = EnvDevelopment then
                NewDevelopmentEncoderConfig else NewProductionEncoderConfig) with
              LevelKey := "LEVEL", MessageKey := "MESSAGE", CallerKey := "CALLER",
              TimeKey := "TIME", NameKey := "NAME",
              EncodeTime := TimeEncoder.RFC3339TimeEncoder }
        else
          NewJSONEncoder
            { (if c2.Environment = EnvWorkstation ∨ c2.Environment = EnvDevelopment then
                NewDevelopmentEncoderConfig else NewProductionEncoderConfig) with
              LevelKey := "LEVEL", MessageKey := "MESSAGE", CallerKey := "CALLER",
              TimeKey := "TIME", NameKey := "NAME",
              EncodeTime := TimeEncoder.RFC3339TimeEncoder }) →
      ((∃ c : EncoderConfig, l2.base.core.enc = NewConsoleEncoder c) ↔
          c2.LogFormat = "console") ∧
        ((∃ c : EncoderConfig, l2.base.core.enc = NewJSONEncoder c) ↔
          c2.LogFormat ≠ "console") := by
    intro c2 l2 h
    by_cases hf : c2.LogFormat = "console"
    · rw [h]
      simp [hf, NewConsoleEncoder, NewJSONEncoder]
    · rw [h]
      simp [hf, NewConsoleEncoder, NewJSONEncoder]
  refine ⟨l, h1, (key cfg l h3).1, (key cfg l h3).2, ?_, ?_⟩
  · intro level environment rt1 format hfmt
    obtain ⟨l1, g1, _, _, g3, _⟩ := NewLogger_built ⟨level, format, environment⟩ rt1
    have hne : format ≠ "console" := by
      simp only [List.mem_cons, List.mem_singleton, List.mem_nil_iff, or_false] at hfmt
      rcases hfmt with rfl | rfl | rfl | rfl | rfl <;> decide
    obtain ⟨c1, hc1⟩ := ((key ⟨level, format, environment⟩ l1 g3).2).2 hne
    exact ⟨l1, c1, g1, hc1⟩
  · intro level environment rt1
    obtain ⟨l1, g1, _, _, g3, _⟩ := NewLogger_built ⟨level, cfg.LogFormat, environment⟩ rt1
    exact ⟨l1, g1, ((key ⟨level, cfg.LogFormat, environment⟩ l1 g3).1).trans
      ((key cfg l h3).1).symm⟩

/-- C6. For every configuration, format and argument list, `Printf` and
`Tracef` do what `Infof` does and `Print` does what `Info` does: each is the
backend's `log` at info severity with the arguments unchanged, whatever
`LogFormat` and `Environment` are, and so a record is written exactly when info
is at or above the configured threshold. -/
theorem print_aliases_info (cfg : Config) (rt0 : Runtime) (format : String)
    (args : List Value) (rt : Runtime) :
    ∃ l : SugaredLogger,
      (NewLogger cfg rt0).1.logger = some l ∧
      (NewLogger cfg rt0).1.Printf format args rt = (NewLogger cfg rt0).1.Infof format args rt ∧
      (NewLogger cfg rt0).1.Tracef format args rt = (NewLogger cfg rt0).1.Infof format args rt ∧
      (NewLogger cfg rt0).1.Print args rt = (NewLogger cfg rt0).1.Info args rt ∧
      (NewLogger cfg rt0).1.Printf format args rt = l.log InfoLevel format args [] rt ∧
      (NewLogger cfg rt0).1.Tracef format args rt = l.log InfoLevel format args [] rt ∧
      (NewLogger cfg rt0).1.Print args rt = l.log InfoLevel "" args [] rt ∧
      (((NewLogger cfg rt0).1.Printf format args rt).written ≠ [] ↔
        (getLogLevel (newLogger cfg)).toInt ≤ InfoLevel.toInt) ∧
      (((NewLogger cfg rt0).1.Tracef format args rt).written ≠ [] ↔
        (getLogLevel (newLogger cfg)).toInt ≤ InfoLevel.toInt) ∧
      (((NewLogger cfg rt0).1.Print args rt).written ≠ [] ↔
        (getLogLevel (newLogger cfg)).toInt ≤ InfoLevel.toInt) ∧
      (∀ o ∈ ((NewLogger cfg rt0).1.Printf format args rt).written ++
            ((NewLogger cfg rt0).1.Tracef format args rt).written ++
            ((NewLogger cfg rt0).1.Print args rt).written,
        ∃ ent : Entry, ent.Level = InfoLevel ∧ o = l.base.core.Write ent []) := by
  obtain ⟨l, h1, _, h2, _⟩ := NewLogger_built cfg rt0
  have hthr : l.base.core.level.l = getLogLevel (newLogger cfg) := by rw [h2]; rfl
  have hw : ∀ (tpl : String), (l.log InfoLevel tpl args [] rt).written ≠ [] ↔
      (getLogLevel (newLogger cfg)).toInt ≤ InfoLevel.toInt := by
    intro tpl
    rw [log_written, hthr]
    by_cases hen : (getLogLevel (newLogger cfg)).toInt ≤ InfoLevel.toInt <;> simp [hen]
  have hent : ∀ (tpl : String), ∀ o ∈ (l.log InfoLevel tpl args [] rt).written,
      ∃ ent : Entry, ent.Level = InfoLevel ∧ o = l.base.core.Write ent [] := by
    intro tpl o ho
    rw [log_written] at ho
    split at ho
    · rw [List.mem_singleton] at ho
      exact ⟨_, rfl, ho⟩
    · simp at ho
  have e1 : (NewLogger cfg rt0).1.Printf format args rt = l.log InfoLevel format args [] rt := by
    simp [dxLogger.Printf, h1, SugaredLogger.Infof]
  have e2 : (NewLogger cfg rt0).1.Tracef format args rt = l.log InfoLevel format args [] rt := by
    simp [dxLogger.Tracef, h1, SugaredLogger.Infof]
  have e3 : (NewLogger cfg rt0).1.Print args rt = l.log InfoLevel "" args [] rt := by
    simp [dxLogger.Print, h1, SugaredLogger.Info]
  have e4 : (NewLogger cfg rt0).1.Infof format args rt = l.log InfoLevel format args [] rt := by
    simp [dxLogger.Infof, h1, SugaredLogger.Infof]
  have e5 : (NewLogger cfg rt0).1.Info args rt = l.log InfoLevel "" args [] rt := by
    simp [dxLogger.Info, h1, SugaredLogger.Info]
  refine ⟨l, h1, e1.trans e4.symm, e2.trans e4.symm, e3.trans e5.symm, e1, e2, e3,
    ?_, ?_, ?_, ?_⟩
  · rw [e1]; exact hw format
  · rw [e2]; exact hw format
  · rw [e3]; exact hw ""
  · intro o ho
    rw [e1, e2, e3] at ho
    simp only [List.mem_append] at ho
    rcases ho with (ho | ho) | ho
    · exact hent format o ho
    · exact hent format o ho
    · exact hent "" o ho

/-- C7. For every configuration the encoder configuration `initLogger` builds
labels the severity `LEVEL`, the message `MESSAGE`, the call site `CALLER`, the
timestamp `TIME` and the logger name `NAME`, and encodes timestamps as RFC3339;
this holds for the development-style and for the production-style preset
alike. -/
theorem encoder_keys_fixed (cfg : Config) (rt : Runtime) :
    ∃ l : SugaredLogger,
      (NewLogger cfg rt).1.logger = some l ∧
      l.base.core.enc.cfg.LevelKey = "LEVEL" ∧
      l.base.core.enc.cfg.MessageKey = "MESSAGE" ∧
      l.base.core.enc.cfg.CallerKey = "CALLER" ∧
      l.base.core.enc.cfg.TimeKey = "TIME" ∧
      l.base.core.enc.cfg.NameKey = "NAME" ∧
      l.base.core.enc.cfg.EncodeTime = TimeEncoder.RFC3339TimeEncoder := by
  obtain ⟨l, h1, _, _, h3, _⟩ := NewLogger_built cfg rt
  refine ⟨l, h1, ?_⟩
  rw [h3]
  by_cases hf : cfg.LogFormat = "console" <;>
    simp [hf, NewConsoleEncoder, NewJSONEncoder, Encoder.cfg]

/-- C10. For every configuration `initLogger` starts from the development-style
preset exactly when `Environment` is the string `development` or
`workstation`, and from the production-style preset for every other value
(among them `production`, `staging`, the empty string and differently cased
spellings); the encoder configuration is that preset with the five keys and the
time encoder replaced. `LogFormat` and `LogLevel` play no part. -/
theorem preset_development_iff (cfg : Config) (rt : Runtime) :
    ∃ l : SugaredLogger,
      (NewLogger cfg rt).1.logger = some l ∧
      (cfg.Environment = "development" ∨ cfg.Environment = "workstation" →
        l.base.core.enc.cfg =
          { NewDevelopmentEncoderConfig with
            LevelKey := "LEVEL", MessageKey := "MESSAGE", CallerKey := "CALLER",
            TimeKey := "TIME", NameKey := "NAME",
            EncodeTime := TimeEncoder.RFC3339TimeEncoder }) ∧
      (¬ (cfg.Environment = "development" ∨ cfg.Environment = "workstation") →
        l.base.core.enc.cfg =
          { NewProductionEncoderConfig with
            LevelKey := "LEVEL", MessageKey := "MESSAGE", CallerKey := "CALLER",
            TimeKey := "TIME", NameKey := "NAME",
            EncodeTime := TimeEncoder.RFC3339TimeEncoder }) ∧
      ({ NewDevelopmentEncoderConfig with
            LevelKey := "LEVEL", MessageKey := "MESSAGE", CallerKey := "CALLER",
            TimeKey := "TIME", NameKey := "NAME",
            EncodeTime := TimeEncoder.RFC3339TimeEncoder } ≠
        { NewProductionEncoderConfig with
            LevelKey := "LEVEL", MessageKey := "MESSAGE", CallerKey := "CALLER",
            TimeKey := "TIME", NameKey := "NAME",
            EncodeTime := TimeEncoder.RFC3339TimeEncoder }) ∧
      (∀ environment ∈ ["production", "staging", "", "Development", "WORKSTATION", "dev"],
        ¬ (environment = "development" ∨ environment = "workstation")) := by
  obtain ⟨l, h1, _, _, h3, _⟩ := NewLogger_built cfg rt
  refine ⟨l, h1, ?_, ?_, by decide, by decide⟩
  · intro henv
    have henv2 : cfg.Environment = EnvWorkstation ∨ cfg.Environment = EnvDevelopment := by
      rcases henv with h | h
      · exact Or.inr h
      · exact Or.inl h
    rw [h3]
    by_cases hf : cfg.LogFormat = "console" <;>
      simp [hf, henv2, NewConsoleEncoder, NewJSONEncoder, Encoder.cfg]
  · intro henv
    have henv2 : ¬ (cfg.Environment = EnvWorkstation ∨ cfg.Environment = EnvDevelopment) := by
      intro h
      rcases h with h | h
      · exact henv (Or.inr h)
      · exact henv (Or.inl h)
    rw [h3]
    by_cases hf : cfg.LogFormat = "console" <;>
      simp [hf, henv2, NewConsoleEncoder, NewJSONEncoder, Encoder.cfg]

/-- C8 as stated fails: with `LogLevel` error and a flush of standard error
that fails, initialization hands the failure to `Warn`, and the handle, whose
threshold is error, drops it: no record reports the failure. -/
theorem sync_failure_counterexample :
    failingSyncRuntime.SyncErr = some "sync /dev/stderr: invalid argument" ∧
    getLogLevel (newLogger ⟨"error", "json", "production"⟩) = ErrorLevel ∧
    (NewLogger ⟨"error", "json", "production"⟩ failingSyncRuntime).2.written = [] := by
  decide

/-- C8, amended. For every configuration for which the flush at the end of
initialization fails, `NewLogger` still returns a logger with its backend
handle installed and the initialization returns normally; the failure is passed
to `Warn` of the handle being initialized, which writes one warning-severity
record carrying the error exactly when the resolved threshold is warn or lower,
and writes nothing when the threshold is above warn. -/
theorem sync_failure_warns (cfg : Config) (rt : Runtime) (err : String)
    (hsync : rt.SyncErr = some err) :
    ∃ l : SugaredLogger,
      (NewLogger cfg rt).1.logger = some l ∧
      (NewLogger cfg rt).2 = l.Warn [Value.err err] rt ∧
      (NewLogger cfg rt).2.ending = Ending.returned ∧
      ((getLogLevel (newLogger cfg)).toInt ≤ WarnLevel.toInt →
        ∃ ent : Entry, ent.Level = WarnLevel ∧
          ent.Message = Message.Sprint [Value.err err] ∧
          (NewLogger cfg rt).2.written = [l.base.core.Write ent []]) ∧
      (WarnLevel.toInt < (getLogLevel (newLogger cfg)).toInt →
        (NewLogger cfg rt).2.written = []) := by
  obtain ⟨l, h1, _, h2, _, _, _, h6, _, h8⟩ := NewLogger_built cfg rt
  have hthr : l.base.core.level.l = getLogLevel (newLogger cfg) := by rw [h2]; rfl
  rw [hsync] at h8
  simp only at h8
  refine ⟨l, h1, h8, ?_, ?_, ?_⟩
  · rw [h8, SugaredLogger.Warn, log_ending _ _ _ _ _ _ h6]
  · intro hen
    refine ⟨writtenEntry l WarnLevel (getMessage "" [Value.err err]) rt.toReadings,
      rfl, ?_, ?_⟩
    · simp [writtenEntry, getMessage]
    · rw [h8, SugaredLogger.Warn, log_written, hthr, if_pos hen]
  · intro hen
    rw [h8, SugaredLogger.Warn, log_written, hthr, if_neg (by omega)]

/-- Witness of the amended C8: threshold info, failing flush. -/
theorem sync_failure_warns_witness :
    failingSyncRuntime.SyncErr = some "sync /dev/stderr: invalid argument" ∧
    ∃ l : SugaredLogger,
      (NewLogger ⟨"info", "json", "production"⟩ failingSyncRuntime).1.logger = some l ∧
      (NewLogger ⟨"info", "json", "production"⟩ failingSyncRuntime).2 =
        l.Warn [Value.err "sync /dev/stderr: invalid argument"] failingSyncRuntime ∧
      (NewLogger ⟨"info", "json", "production"⟩ failingSyncRuntime).2.ending =
        Ending.returned ∧
      ((getLogLevel (newLogger ⟨"info", "json", "production"⟩)).toInt ≤ WarnLevel.toInt →
        ∃ ent : Entry, ent.Level = WarnLevel ∧
          ent.Message = Message.Sprint [Value.err "sync /dev/stderr: invalid argument"] ∧
          (NewLogger ⟨"info", "json", "production"⟩ failingSyncRuntime).2.written =
            [l.base.core.Write ent []]) ∧
      (WarnLevel.toInt < (getLogLevel (newLogger ⟨"info", "json", "production"⟩)).toInt →
        (NewLogger ⟨"info", "json", "production"⟩ failingSyncRuntime).2.written = []) :=
  ⟨rfl, sync_failure_warns ⟨"info", "json", "production"⟩ failingSyncRuntime
    "sync /dev/stderr: invalid argument" rfl⟩

/-- C9. For every configuration the logger `initLogger` builds takes stack
traces from the constant error level on, independently of `LogLevel`,
`LogFormat` and `Environment`. Whenever the stack traces the runtime reports
are non-empty, every record a call writes (the record of the call, and the
error-level diagnostics zap issues for a malformed key/value list) is the
encoding of an entry whose level the record shows, and it carries that entry's
stack trace as a non-empty stack-trace field exactly when the entry's level is
error, dpanic, panic or fatal; a record at debug, info or warn has no
stack-trace field. A call at or above the configured threshold does write its
record. -/
theorem stacktrace_iff_error (cfg : Config) (rt0 rt : Runtime) (lvl : Level)
    (template : String) (fmtArgs context : List Value) (hstack : rt.Stack ≠ "")
    (hdiag : ∀ i : Nat, (rt.Diag i).Stack ≠ "") :
    ∃ l : SugaredLogger,
      (NewLogger cfg rt0).1.logger = some l ∧
      l.base.addStack = ErrorLevel.toInt ∧
      ((getLogLevel (newLogger cfg)).toInt ≤ lvl.toInt →
        ∃ (ent : Entry) (fields : List Field), ent.Level = lvl ∧
          l.base.core.Write ent fields ∈ (l.log lvl template fmtArgs context rt).written) ∧
      (∀ o ∈ (l.log lvl template fmtArgs context rt).written,
        ∃ (ent : Entry) (fields : List Field),
          o = l.base.core.Write ent fields ∧
          (ent.Level = lvl ∨ ent.Level = ErrorLevel) ∧
          o.level = some (l.base.core.enc.cfg.EncodeLevel.encode ent.Level) ∧
          (ErrorLevel.toInt ≤ ent.Level.toInt →
            o.stacktrace = some ent.Stack ∧ ent.Stack ≠ "") ∧
          (ent.Level.toInt < ErrorLevel.toInt → o.stacktrace = none) ∧
          ((∃ st : String, o.stacktrace = some st ∧ st ≠ "") ↔
            ErrorLevel.toInt ≤ ent.Level.toInt)) := by
  obtain ⟨l, h1, _, h2, h3, h4, _⟩ := NewLogger_built cfg rt0
  have hthr : l.base.core.level.l = getLogLevel (newLogger cfg) := by rw [h2]; rfl
  have hkey : l.base.core.enc.cfg.StacktraceKey ≠ "" ∧ l.base.core.enc.cfg.LevelKey ≠ "" ∧
      l.base.core.enc.cfg.TimeKey ≠ "" := by
    rw [h3]
    by_cases hf : cfg.LogFormat = "console" <;>
      by_cases he : cfg.Environment = EnvWorkstation ∨ cfg.Environment = EnvDevelopment <;>
      simp [hf, he, NewConsoleEncoder, NewJSONEncoder, Encoder.cfg,
        NewDevelopmentEncoderConfig, NewProductionEncoderConfig]
  have hst : ∀ ent : Entry, ∀ fields : List Field,
      (l.base.core.Write ent fields).stacktrace =
        if ent.Stack ≠ "" then some ent.Stack else none := by
    intro ent fields
    unfold ioCore.Write
    cases henc : l.base.core.enc with
    | Console c =>
      have hc : c.StacktraceKey ≠ "" := by simpa [henc, Encoder.cfg] using hkey.1
      simp [Encoder.EncodeEntry, consoleEncodeEntry, Output.stacktrace, hc]
    | JSON c =>
      have hc : c.StacktraceKey ≠ "" := by simpa [henc, Encoder.cfg] using hkey.1
      by_cases hs : ent.Stack = "" <;>
        simp [Encoder.EncodeEntry, jsonEncodeEntry, Output.stacktrace, hc, hs]
  have hlv : ∀ ent : Entry, ∀ fields : List Field,
      (l.base.core.Write ent fields).level =
        some (l.base.core.enc.cfg.EncodeLevel.encode ent.Level) := by
    intro ent fields
    unfold ioCore.Write
    cases henc : l.base.core.enc with
    | Console c =>
      have hc : c.LevelKey ≠ "" := by simpa [henc, Encoder.cfg] using hkey.2.1
      have ht : c.TimeKey ≠ "" := by simpa [henc, Encoder.cfg] using hkey.2.2
      cases hl : c.EncodeLevel <;>
        simp [Encoder.EncodeEntry, consoleEncodeEntry, Output.level, hc, ht, Encoder.cfg, hl,
          LevelEncoder.encode, List.find?]
    | JSON c =>
      have hc : c.LevelKey ≠ "" := by simpa [henc, Encoder.cfg] using hkey.2.1
      cases hl : c.EncodeLevel <;>
        simp [Encoder.EncodeEntry, jsonEncodeEntry, Output.level, hc, Encoder.cfg, hl,
          LevelEncoder.encode, List.find?]
  have hrec : ∀ (lv : Level) (msg : Message) (rd : Readings) (fields : List Field),
      rd.Stack ≠ "" →
      (ErrorLevel.toInt ≤ (writtenEntry l lv msg rd).Level.toInt →
        (l.base.core.Write (writtenEntry l lv msg rd) fields).stacktrace =
            some (writtenEntry l lv msg rd).Stack ∧
          (writtenEntry l lv msg rd).Stack ≠ "") ∧
      ((writtenEntry l lv msg rd).Level.toInt < ErrorLevel.toInt →
        (l.base.core.Write (writtenEntry l lv msg rd) fields).stacktrace = none) ∧
      ((∃ st : String,
          (l.base.core.Write (writtenEntry l lv msg rd) fields).stacktrace = some st ∧
            st ≠ "") ↔
        ErrorLevel.toInt ≤ (writtenEntry l lv msg rd).Level.toInt) := by
    intro lv msg rd fields hrd
    rw [hst]
    have hL : (writtenEntry l lv msg rd).Level = lv := rfl
    rw [hL]
    by_cases hE : ErrorLevel.toInt ≤ lv.toInt
    · have hS : (writtenEntry l lv msg rd).Stack = rd.Stack := by
        simp [writtenEntry, h4, hE]
      rw [hS]
      simp [hrd, hE]
    · have hS : (writtenEntry l lv msg rd).Stack = "" := by
        simp [writtenEntry, h4, hE]
      rw [hS]
      simp [hE]
  refine ⟨l, h1, h4, ?_, ?_⟩
  · intro hen
    refine ⟨writtenEntry l lvl (getMessage template fmtArgs) rt.toReadings,
      (sweetenFields context).fields, rfl, ?_⟩
    rw [log_written_context, hthr, if_pos hen]
    simp
  · intro o ho
    rw [log_written_context] at ho
    split at ho
    · rw [List.mem_append, List.mem_singleton] at ho
      rcases ho with ho | ho
      · obtain ⟨d, _, j, hj⟩ := logDiagnostics_mem l rt _ 0 o ho
        subst hj
        exact ⟨_, _, rfl, Or.inr rfl, hlv _ _, hrec _ _ _ _ (hdiag j)⟩
      · subst ho
        exact ⟨_, _, rfl, Or.inl rfl, hlv _ _, hrec _ _ _ _ hstack⟩
    · simp at ho

/-- Witness of C9: an info-level call with a dangling key on a logger with
threshold debug, under a runtime whose stack traces are non-empty; the call
writes an error-level diagnostic and its own info-level record. -/
theorem stacktrace_iff_error_witness :
    (sampleRuntime.Stack ≠ "" ∧ ∀ i : Nat, (sampleRuntime.Diag i).Stack ≠ "") ∧
    ∃ l : SugaredLogger,
      (NewLogger ⟨"debug", "json", "production"⟩ sampleRuntime).1.logger = some l ∧
      l.base.addStack = ErrorLevel.toInt ∧
      ((getLogLevel (newLogger ⟨"debug", "json", "production"⟩)).toInt ≤ InfoLevel.toInt →
        ∃ (ent : Entry) (fields : List Field), ent.Level = InfoLevel ∧
          l.base.core.Write ent fields ∈
            (l.log InfoLevel "msg" [] [Value.str "k1"] sampleRuntime).written) ∧
      (∀ o ∈ (l.log InfoLevel "msg" [] [Value.str "k1"] sampleRuntime).written,
        ∃ (ent : Entry) (fields : List Field),
          o = l.base.core.Write ent fields ∧
          (ent.Level = InfoLevel ∨ ent.Level = ErrorLevel) ∧
          o.level = some (l.base.core.enc.cfg.EncodeLevel.encode ent.Level) ∧
          (ErrorLevel.toInt ≤ ent.Level.toInt →
            o.stacktrace = some ent.Stack ∧ ent.Stack ≠ "") ∧
          (ent.Level.toInt < ErrorLevel.toInt → o.stacktrace = none) ∧
          ((∃ st : String, o.stacktrace = some st ∧ st ≠ "") ↔
            ErrorLevel.toInt ≤ ent.Level.toInt)) :=
  ⟨⟨by decide, fun _ => by simp [sampleRuntime]⟩,
   stacktrace_iff_error ⟨"debug", "json", "production"⟩ sampleRuntime sampleRuntime
     InfoLevel "msg" [] [Value.str "k1"] (by decide) (fun _ => by simp [sampleRuntime])⟩

end logam
